import Mathlib

/-!
Verification development for the what-the-src ingest pipeline and web read
surface.  The definitions below are a shallow embedding of `src/ingest/rpm.rs`
and `src/web.rs`; collaborators that live outside those two files (the digest
sink, the tar ingest routine, the reference recorder, the archive template and
the diff crate) are modelled from the specification at their documented
interfaces.  Byte streams are `List Nat`, the sha256 function is an explicit
parameter `h` so that every theorem quantifies over the hash.
-/

namespace WhatTheSrc

/-- A byte stream, one `Nat` per byte. -/
abbrev Bytes := List Nat

/-- Tagged union of link targets, as in `ingest::tar::LinksTo`. -/
inductive LinksTo where
  | Symbolic (target : String)
  | Hard (target : String)
deriving DecidableEq, Repr

/-- One row of an artifact's `files` table, as in `ingest::tar::Entry`:
archive-internal path, optional body digest, optional link target. -/
structure TarEntry where
  path : String
  digest : Option String
  links_to : Option LinksTo
deriving DecidableEq, Repr

/-- A `db::Ref` row: `(chksum, vendor, package, version, filename)`. -/
structure Ref where
  chksum : String
  vendor : String
  package : String
  version : String
  filename : Option String
deriving DecidableEq, Repr

/-- A `db::Artifact` row, reduced to the fields the ingest core writes:
content digest and the ordered `files` list. -/
structure Artifact where
  chksum : String
  files : List TarEntry
deriving DecidableEq, Repr

/-- The relational store: the `refs` and `artifacts` tables, in insertion
order. -/
structure Db where
  refs : List Ref
  artifacts : List Artifact
deriving DecidableEq, Repr

/-- The empty database. -/
def Db.empty : Db := ⟨[], []⟩

/-- Modelled from the spec: the reference recorder's `insert_ref` (§4.6) is
transactional and idempotent on the full tuple; each call commits its row. -/
def Db.insert_ref (db : Db) (r : Ref) : Db :=
  if r ∈ db.refs then db else { db with refs := db.refs ++ [r] }

/-- Modelled from the spec: `upsert_artifact` (§4.6), idempotent on `chksum`;
`files` is overwritten on re-ingest. -/
def Db.upsert_artifact (db : Db) (a : Artifact) : Db :=
  if db.artifacts.any (fun x => x.chksum = a.chksum) then
    { db with artifacts := db.artifacts.map (fun x => if x.chksum = a.chksum then a else x) }
  else
    { db with artifacts := db.artifacts ++ [a] }

/-- Tar entry types honoured by the pipeline (`tokio_tar::EntryType`);
everything else is `Other`. -/
inductive EntryType where
  | Regular
  | Directory
  | Symlink
  | Hardlink
  | Other
deriving DecidableEq, Repr

/-- One entry of a decompressed inner tar stream as the tar ingest routine
sees it: path, entry type, body bytes and, for links, the target. -/
structure InnerFile where
  path : String
  etype : EntryType
  body : Bytes
  linkTarget : Option String
deriving DecidableEq, Repr

/-- A nested archive, after the decompression bridge: the decompressed tar
byte stream together with the entries it parses into. -/
structure InnerArchive where
  tarBytes : Bytes
  files : List InnerFile
deriving DecidableEq, Repr

/-- The summary a tar ingest returns: outer digest of the decompressed tar
stream and the recorded `files` list. -/
structure Summary where
  outerSha256 : String
  files : List TarEntry
deriving DecidableEq, Repr

/-- Modelled from the spec: the per-entry record the tar ingest routine
builds (§4.4 step 3; §4.2: entry types other than regular, directory,
symlink, hardlink are skipped). -/
def mkTarEntry (h : Bytes → String) (f : InnerFile) : Option TarEntry :=
  match f.etype with
  | EntryType.Regular => some ⟨f.path, some (h f.body), none⟩
  | EntryType.Directory => some ⟨f.path, none, none⟩
  | EntryType.Symlink => some ⟨f.path, none, some (LinksTo.Symbolic (f.linkTarget.getD ""))⟩
  | EntryType.Hardlink => some ⟨f.path, none, some (LinksTo.Hard (f.linkTarget.getD ""))⟩
  | EntryType.Other => none

/-- Modelled from the spec: the tar ingest routine `ingest::tar::stream_data`
(§4.4), which is not under `src/`.  It drains the archive, records one
`TarEntry` per honoured entry, finalizes the outer digest of the decompressed
tar stream, and, when a database handle is present, upserts an Artifact keyed
by that digest.  The `compression` argument only selects framing for the
decompression bridge, which is abstracted away by `InnerArchive`. -/
def tarStreamData (h : Bytes → String) (persist : Bool) (compression : Option String)
    (inner : InnerArchive) (db : Db) : Summary × Db :=
  let _ := compression
  let files := inner.files.filterMap (mkTarEntry h)
  let chk := h inner.tarBytes
  let db' := if persist then db.upsert_artifact ⟨chk, files⟩ else db
  (⟨chk, files⟩, db')

/-- List-level suffix test modelling Rust's `str::ends_with`. -/
def str_ends_with (s suffix : String) : Bool :=
  suffix.data.isSuffixOf s.data

/-- List-level test modelling Rust's `str::starts_with`. -/
def str_starts_with (s pre : String) : Bool :=
  pre.data.isPrefixOf s.data

/-- The filename classifier of `read_routine` (`src/ingest/rpm.rs` lines
45-58), embedded faithfully to the source text.  The source's final branch is
`} else { None; }` — the trailing semicolon makes it a unit statement, so no
`Option` value is produced by that branch.  We encode "a value was produced"
as the outer `Option`: `some v` for the four suffix branches, `none` for the
unit branch.  The inner value mirrors the source's
`Option<Option<&str>>`: `some c` means "recurse as tar with compression `c`"
and `none` would mean "treat as blob". -/
def archive_w_compression (filename : String) : Option (Option (Option String)) :=
  if str_ends_with filename ".tar.gz" || str_ends_with filename ".tgz"
      || str_ends_with filename ".crate" then
    some (some (some "gz"))
  else if str_ends_with filename ".tar.xz" then
    some (some (some "xz"))
  else if str_ends_with filename ".tar.bz2" then
    some (some (some "bz2"))
  else if str_ends_with filename ".tar" then
    some (some none)
  else
    none

/-- One entry of the RPM-level tar stream as `read_routine` sees it.
`fileName` models `path.file_name()` followed by `.to_str()`: `none` means
the path has no final component, `some none` means the final component is not
valid UTF-8, `some (some s)` is the decoded filename.  `inner` is the
decompressed content used when the entry is classified as an archive. -/
structure RpmEntry where
  entryType : EntryType
  fileName : Option (Option String)
  body : Bytes
  inner : InnerArchive
deriving DecidableEq, Repr

/-- The loop body of `rpm::read_routine` (`src/ingest/rpm.rs` lines 24-86)
for a single entry: skip non-regular entries and entries without a decodable
filename; classify by suffix; for archives recurse through the tar ingest
(with the database handle withheld for the `chromium-` deny-list) and for
blobs hash the body; insert a Ref with the resulting sha256.  The result is
`none` when the entry reaches the classifier's unit branch, which produces no
value in the source. -/
def process_entry (h : Bytes → String) (vendor package version : String)
    (db : Db) (e : RpmEntry) : Option Db :=
  if e.entryType ≠ EntryType.Regular then some db
  else
    match e.fileName with
    | none => some db
    | some none => some db
    | some (some filename) =>
      match archive_w_compression filename with
      | some (some compression) =>
        let persist := ! str_starts_with filename "chromium-"
        let out := tarStreamData h persist compression e.inner db
        some (out.2.insert_ref ⟨out.1.outerSha256, vendor, package, version, some filename⟩)
      | some none =>
        some (db.insert_ref ⟨h e.body, vendor, package, version, some filename⟩)
      | none => none

/-- The entry loop of `rpm::read_routine`: process entries in order, carrying
the database state; the boolean records whether the routine ran to completion
(its `Ok(())`).  On an entry with no defined behaviour the state observed so
far is kept and the flag is `false`. -/
def read_routine_run (h : Bytes → String) (vendor package version : String) :
    Db → List RpmEntry → Db × Bool
  | db, [] => (db, true)
  | db, e :: rest =>
    match process_entry h vendor package version db e with
    | some db' => read_routine_run h vendor package version db' rest
    | none => (db, false)

/-- `rpm::read_routine` as a `Result`: the final database when every entry
was processed. -/
def read_routine (h : Bytes → String) (vendor package version : String)
    (entries : List RpmEntry) (db : Db) : Option Db :=
  let out := read_routine_run h vendor package version db entries
  if out.2 then some out.1 else none

/-- The error kinds `rpm::stream_data` can surface. -/
inductive RpmError where
  | ChildExit (status : Nat)
  | Io
  | Reader
deriving DecidableEq, Repr

/-- The join logic of `rpm::stream_data` (`src/ingest/rpm.rs` lines 114-121),
after `tokio::join!` has completed both tasks: `writer?` first, then the
child's exit status (non-zero becomes `ChildExit`), and only then the
reader's result. -/
def stream_data_join (writerResult : Except RpmError Nat) (status : Nat)
    (readerResult : Except RpmError Unit) : Except RpmError Unit :=
  match writerResult with
  | Except.error e => Except.error e
  | Except.ok _ =>
    if status = 0 then readerResult
    else Except.error (RpmError.ChildExit status)

/-- `rpm::stream_data` end to end (`src/ingest/rpm.rs` lines 90-122): the
reader task concurrently consumes whatever tar entries the extractor emitted,
inserting Refs and Artifacts as it goes (`tokio::join!` waits for it to
finish), and then the three-way join resolves.  `emitted` is the entry
sequence the extractor produced on stdout, `writerResult` the outcome of the
stdin copy, `status` the extractor's exit status. -/
def stream_data (h : Bytes → String) (vendor package version : String)
    (emitted : List RpmEntry) (writerResult : Except RpmError Nat) (status : Nat)
    (db : Db) : Except RpmError Unit × Db :=
  let out := read_routine_run h vendor package version db emitted
  let readerResult : Except RpmError Unit :=
    if out.2 then Except.ok () else Except.error RpmError.Reader
  (stream_data_join writerResult status readerResult, out.1)

/-- The search result cap `SEARCH_LIMIT` (`src/web.rs` line 24). -/
def SEARCH_LIMIT : Nat := 150

/-- The query transformation of the `search` handler (`src/web.rs` lines
218-220): `query.retain(|c| !"%_".contains(c))` followed by
`query.push('%')`. -/
def search_query (q : String) : String :=
  String.push ⟨q.data.filter (fun c => !("%_".data.contains c))⟩ '%'

/-- The `search` handler's database call (`src/web.rs` line 222): the
transformed query string together with the mandatory limit. -/
def search (q : String) : String × Nat :=
  (search_query q, SEARCH_LIMIT)

/-- The `pad_right` handlebars helper (`src/web.rs` lines 46-48):
left-justify, pad with spaces to the requested width. -/
def pad_right (s : String) (width : Nat) : String :=
  s ++ ⟨List.replicate (width - s.length) ' '⟩

/-- Modelled from the spec: the link suffix the `archive.txt.hbs` template
appends (§4.8): " -> target" for symbolic links, " link to target" for hard
links, nothing otherwise. -/
def link_suffix (e : TarEntry) : String :=
  match e.links_to with
  | some (LinksTo.Symbolic t) => " -> " ++ t
  | some (LinksTo.Hard t) => " link to " ++ t
  | none => ""

/-- Modelled from the spec: one line of the `archive.txt.hbs` template
(§4.8): the digest (or nothing) padded to a 73-character column, then the
path, then the link suffix, then a newline.  Validated below against the
expected outputs of the tests in `src/web.rs`. -/
def render_line (e : TarEntry) : String :=
  pad_right (e.digest.getD "") 73 ++ e.path ++ link_suffix e ++ "\n"

/-- Modelled from the spec: `render_archive` (§4.8), one line per entry of
the `files` table, concatenated in order. -/
def render_archive : List TarEntry → String
  | [] => ""
  | e :: rest => render_line e ++ render_archive rest

/-- Rust's `str::split_once('/')` on a character list: split at the first
`'/'`, or `none` when there is none. -/
def split_once_slash : List Char → Option (List Char × List Char)
  | [] => none
  | c :: rest =>
    if c = '/' then some ([], rest)
    else (split_once_slash rest).map (fun p => (c :: p.1, p.2))

/-- The path trimming of `process_files_list` (`src/web.rs` lines 273-280):
drop everything up to and including the first `'/'`; a path without `'/'` is
left unchanged. -/
def trim_path (p : String) : String :=
  match split_once_slash p.data with
  | some p' => ⟨p'.2⟩
  | none => p

/-- Apply `trim_path` to one entry's path. -/
def trim_entry (e : TarEntry) : TarEntry :=
  { e with path := trim_path e.path }

/-- Path order on entries, the comparator of `sort_by` in
`process_files_list` (`src/web.rs` line 282). -/
def pathLe (a b : TarEntry) : Prop := a.path ≤ b.path

instance : DecidableRel pathLe :=
  fun a b => inferInstanceAs (Decidable (a.path ≤ b.path))

instance : IsTotal TarEntry pathLe := ⟨fun a b => le_total a.path b.path⟩

instance : IsTrans TarEntry pathLe := ⟨fun _ _ _ h1 h2 => le_trans h1 h2⟩

/-- `process_files_list` (`src/web.rs` lines 266-285): optionally trim the
leading path component of every entry, then sort by path ascending with a
stable sort (Rust's `sort_by`; modelled by insertion sort, which is also
stable). -/
def process_files_list (list : List TarEntry) (trimmed : Bool) : List TarEntry :=
  let list' := if trimmed then list.map trim_entry else list
  List.insertionSort pathLe list'

/-- The files preparation of the `diff` handler (`src/web.rs` lines 303-306):
`process_files_list` runs only when the `sorted` toggle is set. -/
def prepare_files (files : List TarEntry) (sorted trimmed : Bool) : List TarEntry :=
  if sorted then process_files_list files trimmed else files

/-- A line-diff operation. -/
inductive DiffOp where
  | keep (l : List Char)
  | del (l : List Char)
  | ins (l : List Char)
deriving DecidableEq, Repr

/-- Split a character list into lines at `'\n'`. -/
def split_lines : List Char → List (List Char)
  | [] => [[]]
  | c :: rest =>
    let r := split_lines rest
    if c = '\n' then [] :: r
    else (c :: r.headD []) :: r.tail

/-- Modelled from the spec: a line diff at the interface of the external
`diffy` crate — equal lines are kept, differing lines become delete/insert
pairs; an all-keep script means the two texts are equal. -/
def diff_lines : List (List Char) → List (List Char) → List DiffOp
  | [], bs => bs.map DiffOp.ins
  | a :: as, [] => DiffOp.del a :: diff_lines as []
  | a :: as, b :: bs =>
    if a = b then DiffOp.keep a :: diff_lines as bs
    else DiffOp.del a :: DiffOp.ins b :: diff_lines as bs

/-- Render one diff operation into the patch body; kept lines contribute
nothing. -/
def change_line : DiffOp → Option String
  | DiffOp.keep _ => none
  | DiffOp.del l => some ("-" ++ String.mk l ++ "\n")
  | DiffOp.ins l => some ("+" ++ String.mk l ++ "\n")

/-- A unified patch: the filename header and the hunk body. -/
structure Patch where
  header : String
  body : String
deriving DecidableEq, Repr

/-- Modelled from the spec: `diffy::create_file_patch` at its interface — a
header naming the two files and a body built from the line diff of the two
texts. -/
def create_file_patch (original modified fromName toName : String) : Patch :=
  { header := "--- " ++ fromName ++ "\n+++ " ++ toName ++ "\n"
    body := String.join
      ((diff_lines (split_lines original.data) (split_lines modified.data)).filterMap change_line) }

/-- The `diff` handler (`src/web.rs` lines 287-312) after both artifacts have
been resolved: optionally process both files lists, render both archive
tables, and compute the patch. -/
def diff (artifact1 artifact2 : Artifact) (diff_from diff_to : String)
    (sorted trimmed : Bool) : Patch :=
  let files1 := prepare_files artifact1.files sorted trimmed
  let files2 := prepare_files artifact2.files sorted trimmed
  create_file_patch (render_archive files1) (render_archive files2) diff_from diff_to

/-! ## Theorems -/

/-- Inserting a Ref never touches the artifacts table. -/
theorem insert_ref_artifacts (db : Db) (r : Ref) :
    (db.insert_ref r).artifacts = db.artifacts := by
  unfold Db.insert_ref
  split <;> rfl

/-- C1: the claim states that an RPM regular-file entry whose filename
matches no recognized archive suffix is drained through a Digest sink and a
Ref with the body's sha256 is inserted.  The source violates this: the
classifier's final branch is the unit statement `None;`
(`src/ingest/rpm.rs` line 57), so no classifier value is produced for such a
filename, the hash-only path is unreachable, and no Ref is inserted — shown
here at the failing input `"README.md"`. -/
theorem c1_blob_entry_unreachable :
    ∀ (h : Bytes → String) (v p ver : String) (db : Db) (body : Bytes) (inner : InnerArchive),
      archive_w_compression "README.md" = none ∧
      process_entry h v p ver db ⟨EntryType.Regular, some (some "README.md"), body, inner⟩ = none ∧
      read_routine_run h v p ver db
          [⟨EntryType.Regular, some (some "README.md"), body, inner⟩] = (db, false) := by
  intro h v p ver db body inner
  exact ⟨rfl, rfl, rfl⟩

/-- C2: a regular entry whose filename has the `chromium-` deny-list prefix
and a recognized archive suffix recurses with the database handle absent:
the Ref carrying the outer digest of the decompressed inner tar is still
inserted, but the artifacts table is unchanged. -/
theorem c2_chromium_ref_without_artifact :
    ∀ (h : Bytes → String) (v p ver : String) (db : Db) (body : Bytes)
      (inner : InnerArchive) (fn : String) (c : Option String),
      str_starts_with fn "chromium-" = true →
      archive_w_compression fn = some (some c) →
      process_entry h v p ver db ⟨EntryType.Regular, some (some fn), body, inner⟩
          = some (db.insert_ref ⟨h inner.tarBytes, v, p, ver, some fn⟩) ∧
      (db.insert_ref ⟨h inner.tarBytes, v, p, ver, some fn⟩).artifacts = db.artifacts := by
  intro h v p ver db body inner fn c hpre harch
  refine ⟨?_, insert_ref_artifacts db _⟩
  simp [process_entry, harch, hpre, tarStreamData]

/-- Witness for C2 at the concrete entry `chromium-foo.tar.xz`. -/
theorem c2_chromium_ref_without_artifact_witness :
    str_starts_with "chromium-foo.tar.xz" "chromium-" = true ∧
    archive_w_compression "chromium-foo.tar.xz" = some (some (some "xz")) ∧
    process_entry (fun _ => "d") "v" "p" "1" Db.empty
        ⟨EntryType.Regular, some (some "chromium-foo.tar.xz"), [], ⟨[0], []⟩⟩
      = some (Db.empty.insert_ref ⟨"d", "v", "p", "1", some "chromium-foo.tar.xz"⟩) :=
  ⟨by decide, by decide,
    (c2_chromium_ref_without_artifact (fun _ => "d") "v" "p" "1" Db.empty [] ⟨[0], []⟩
      "chromium-foo.tar.xz" (some "xz") (by decide) (by decide)).1⟩

/-- C5: the search handler removes every `%` and `_` from the query, appends
a single trailing `%`, and always queries with the limit 150; in particular
`q = "foo%bar_"` becomes the query `"foobar%"`. -/
theorem c5_search_transform :
    ∀ q : String,
      (search q).1.data = q.data.filter (fun c => decide (c ≠ '%' ∧ c ≠ '_')) ++ ['%'] ∧
      (search q).2 = SEARCH_LIMIT ∧ SEARCH_LIMIT = 150 ∧
      search "foo%bar_" = ("foobar%", 150) := by
  intro q
  refine ⟨?_, rfl, rfl, rfl⟩
  show (String.push ⟨q.data.filter _⟩ '%').data = _
  simp only [String.push]
  congr 1
  apply List.filter_congr
  intro a _
  by_cases h1 : a = '%' <;> by_cases h2 : a = '_' <;>
    simp [h1, h2, List.contains, show "%_".data = ['%', '_'] from rfl]

/-- C9: the precedence of the three-way join in `rpm::stream_data`: a writer
error is returned first; otherwise a non-zero extractor status yields
`ChildExit(status)` regardless of the reader's result; a reader result is
surfaced only when the writer succeeded and the status was zero. -/
theorem c9_join_error_precedence :
    ∀ (w : Except RpmError Nat) (status : Nat) (r : Except RpmError Unit),
      (∀ e, w = Except.error e → stream_data_join w status r = Except.error e) ∧
      (∀ n, w = Except.ok n → status ≠ 0 →
        stream_data_join w status r = Except.error (RpmError.ChildExit status)) ∧
      (∀ n, w = Except.ok n → status = 0 → stream_data_join w status r = r) := by
  intro w status r
  refine ⟨?_, ?_, ?_⟩
  · intro e hw
    subst hw
    rfl
  · intro n hw hs
    subst hw
    simp [stream_data_join, hs]
  · intro n hw hs
    subst hw
    simp [stream_data_join, hs]

/-- Witness for C9: a writer error wins over a non-zero exit and a failed
reader, and a non-zero exit wins over a failed reader. -/
theorem c9_join_error_precedence_witness :
    stream_data_join (Except.error RpmError.Io) 2 (Except.error RpmError.Reader)
        = Except.error RpmError.Io ∧
    stream_data_join (Except.ok 7) 2 (Except.error RpmError.Reader)
        = Except.error (RpmError.ChildExit 2) ∧
    stream_data_join (Except.ok 7) 0 (Except.ok ()) = Except.ok () :=
  ⟨(c9_join_error_precedence (Except.error RpmError.Io) 2
      (Except.error RpmError.Reader)).1 RpmError.Io rfl,
   (c9_join_error_precedence (Except.ok 7) 2
      (Except.error RpmError.Reader)).2.1 7 rfl (by decide),
   (c9_join_error_precedence (Except.ok 7) 0 (Except.ok ())).2.2 7 rfl rfl⟩

/-- C10: a regular entry whose path has no final filename component, or whose
filename is not valid UTF-8, is silently skipped: its body is never hashed
and no Ref is inserted (the database is unchanged), and the run continues on
the remaining entries exactly as if the entry were absent. -/
theorem c10_undecodable_filename_skipped :
    ∀ (h : Bytes → String) (v p ver : String) (db : Db) (e : RpmEntry)
      (rest : List RpmEntry),
      e.entryType = EntryType.Regular →
      (e.fileName = none ∨ e.fileName = some none) →
      process_entry h v p ver db e = some db ∧
      read_routine_run h v p ver db (e :: rest) = read_routine_run h v p ver db rest := by
  intro h v p ver db e rest htype hname
  have hp : process_entry h v p ver db e = some db := by
    rcases hname with hn | hn <;> simp [process_entry, htype, hn]
  exact ⟨hp, by simp [read_routine_run, hp]⟩

/-- Witness for C10: an entry whose path has no final component is skipped
and the run on the singleton list succeeds with the database unchanged. -/
theorem c10_undecodable_filename_skipped_witness :
    process_entry (fun _ => "d") "v" "p" "1" Db.empty
        ⟨EntryType.Regular, none, [0], ⟨[], []⟩⟩ = some Db.empty ∧
    read_routine_run (fun _ => "d") "v" "p" "1" Db.empty
        [⟨EntryType.Regular, none, [0], ⟨[], []⟩⟩]
      = read_routine_run (fun _ => "d") "v" "p" "1" Db.empty [] :=
  c10_undecodable_filename_skipped (fun _ => "d") "v" "p" "1" Db.empty
    ⟨EntryType.Regular, none, [0], ⟨[], []⟩⟩ [] rfl (Or.inl rfl)

/-- C3 counterexample: the claim also asserts that no Refs and no Artifacts
are committed when the extractor exits non-zero.  The source inserts each Ref
(and each recursed Artifact) immediately while the reader task streams,
before `child.wait()` is consulted: here the extractor emitted one complete
`x.tar` entry and then exited with status 2, so the ingest returns
`ChildExit(2)` and yet one Ref and one Artifact are committed. -/
theorem c3_refs_committed_despite_child_exit :
    stream_data (fun _ => "d") "v" "p" "1"
        [⟨EntryType.Regular, some (some "x.tar"), [], ⟨[0], []⟩⟩]
        (Except.ok 1) 2 Db.empty
      = (Except.error (RpmError.ChildExit 2),
         ⟨[⟨"d", "v", "p", "1", some "x.tar"⟩], [⟨"d", []⟩]⟩) ∧
    (stream_data (fun _ => "d") "v" "p" "1"
        [⟨EntryType.Regular, some (some "x.tar"), [], ⟨[0], []⟩⟩]
        (Except.ok 1) 2 Db.empty).2.refs ≠ [] ∧
    (stream_data (fun _ => "d") "v" "p" "1"
        [⟨EntryType.Regular, some (some "x.tar"), [], ⟨[0], []⟩⟩]
        (Except.ok 1) 2 Db.empty).2.artifacts ≠ [] :=
  ⟨rfl, by decide, by decide⟩

/-- C3 amended: if the stdin copy succeeded and the extractor exited with a
non-zero status, the RPM ingest returns `ChildExit(status)` (regardless of
the reader's outcome), while the database keeps exactly the Refs and
Artifacts the concurrently running reader inserted for the entries it had
already processed. -/
theorem c3_child_exit_keeps_reader_writes :
    ∀ (h : Bytes → String) (v p ver : String) (emitted : List RpmEntry)
      (n status : Nat) (db : Db),
      status ≠ 0 →
      stream_data h v p ver emitted (Except.ok n) status db
        = (Except.error (RpmError.ChildExit status),
           (read_routine_run h v p ver db emitted).1) := by
  intro h v p ver emitted n status db hs
  simp [stream_data, stream_data_join, hs]

/-- Witness for the amended C3 at a concrete input. -/
theorem c3_child_exit_keeps_reader_writes_witness :
    (2 : Nat) ≠ 0 ∧
    stream_data (fun _ => "d") "v" "p" "1" [] (Except.ok 0) 2 Db.empty
      = (Except.error (RpmError.ChildExit 2),
         (read_routine_run (fun _ => "d") "v" "p" "1" Db.empty []).1) :=
  ⟨by decide,
   c3_child_exit_keeps_reader_writes (fun _ => "d") "v" "p" "1" [] 0 2 Db.empty (by decide)⟩

/-- C4: an RPM holding one recognized archive entry `x.tar.gz` whose
decompressed inner tar contains the regular files `a` and `b` — together
with any non-regular entry, which produces no Ref — yields exactly one
Artifact keyed by the sha256 of the decompressed inner tar stream with the
two per-entry digests, and exactly one Ref with that chksum and the observed
filename. -/
theorem c4_single_archive_single_ref :
    ∀ (h : Bytes → String) (v p ver : String) (tarBytes ba bb body : Bytes)
      (ne : RpmEntry),
      ne.entryType ≠ EntryType.Regular →
      read_routine_run h v p ver Db.empty
          [ne, ⟨EntryType.Regular, some (some "x.tar.gz"), body,
            ⟨tarBytes, [⟨"a", EntryType.Regular, ba, none⟩,
              ⟨"b", EntryType.Regular, bb, none⟩]⟩⟩]
        = (⟨[⟨h tarBytes, v, p, ver, some "x.tar.gz"⟩],
            [⟨h tarBytes, [⟨"a", some (h ba), none⟩, ⟨"b", some (h bb), none⟩]⟩]⟩,
           true) := by
  intro h v p ver tarBytes ba bb body ne hne
  have h1 : process_entry h v p ver Db.empty ne = some Db.empty := by
    simp [process_entry, hne]
  simp [read_routine_run, h1]
  rfl

/-- Witness for C4 with a directory entry ahead of the archive. -/
theorem c4_single_archive_single_ref_witness :
    (⟨EntryType.Directory, some (some "d"), [], ⟨[], []⟩⟩ : RpmEntry).entryType
        ≠ EntryType.Regular ∧
    read_routine_run (fun _ => "d") "v" "p" "1" Db.empty
        [⟨EntryType.Directory, some (some "d"), [], ⟨[], []⟩⟩,
         ⟨EntryType.Regular, some (some "x.tar.gz"), [9],
          ⟨[1], [⟨"a", EntryType.Regular, [0], none⟩,
            ⟨"b", EntryType.Regular, [255], none⟩]⟩⟩]
      = (⟨[⟨"d", "v", "p", "1", some "x.tar.gz"⟩],
          [⟨"d", [⟨"a", some "d", none⟩, ⟨"b", some "d", none⟩]⟩]⟩, true) :=
  ⟨by decide,
   c4_single_archive_single_ref (fun _ => "d") "v" "p" "1" [1] [0] [255] [9]
     ⟨EntryType.Directory, some (some "d"), [], ⟨[], []⟩⟩ (by decide)⟩

/-- A diff of a line list against itself keeps every line. -/
theorem diff_lines_self (xs : List (List Char)) :
    diff_lines xs xs = xs.map DiffOp.keep := by
  induction xs with
  | nil => rfl
  | cons x xs ih => simp [diff_lines, ih]

/-- Kept lines contribute nothing to a patch body. -/
theorem filterMap_change_line_keep (xs : List (List Char)) :
    xs.filterMap (change_line ∘ DiffOp.keep) = [] := by
  induction xs with
  | nil => rfl
  | cons x xs ih => simp [change_line, ih]

/-- C6: diffing an artifact against itself produces a patch with an empty
body, under every combination of the `sorted` and `trimmed` toggles. -/
theorem c6_self_diff_empty_body :
    ∀ (a : Artifact) (diff_from diff_to : String) (sorted trimmed : Bool),
      (diff a a diff_from diff_to sorted trimmed).body = "" := by
  intro a diff_from diff_to sorted trimmed
  simp [diff, create_file_patch, diff_lines_self, filterMap_change_line_keep,
    String.join]

/-- A character list without `'/'` has no split. -/
theorem split_once_slash_of_not_mem :
    ∀ (xs : List Char), '/' ∉ xs → split_once_slash xs = none := by
  intro xs
  induction xs with
  | nil => intro _; rfl
  | cons c rest ih =>
    intro hx
    rw [List.mem_cons] at hx
    push_neg at hx
    simp [split_once_slash, Ne.symm hx.1, ih hx.2]

/-- Splitting at the first slash of `xs ++ '/' :: ys` when `xs` is
slash-free. -/
theorem split_once_slash_append :
    ∀ (xs ys : List Char), '/' ∉ xs →
      split_once_slash (xs ++ '/' :: ys) = some (xs, ys) := by
  intro xs ys
  induction xs with
  | nil => intro _; simp [split_once_slash]
  | cons c rest ih =>
    intro hx
    rw [List.mem_cons] at hx
    push_neg at hx
    simp [split_once_slash, Ne.symm hx.1, ih hx.2]

/-- A path without a slash is left unchanged by trimming. -/
theorem trim_path_no_slash (p : String) (hp : '/' ∉ p.data) : trim_path p = p := by
  simp [trim_path, split_once_slash_of_not_mem p.data hp]

/-- Trimming removes everything before (and including) the first slash. -/
theorem trim_path_strips_first_component (pre post : String) (hp : '/' ∉ pre.data) :
    trim_path (pre ++ "/" ++ post) = post := by
  obtain ⟨l⟩ := post
  have hdata : (pre ++ "/" ++ (⟨l⟩ : String)).data = pre.data ++ '/' :: l := by
    simp [String.data_append]
  rw [trim_path, hdata, split_once_slash_append pre.data l hp]

/-- C8: on a diff with the toggles of the `/diff-sorted-trimmed` route, every
entry's path loses everything up to and including the first `'/'` (paths
without a slash are unchanged) before sorting, and whenever the `sorted`
toggle is set the prepared files list is sorted by path ascending. -/
theorem c8_trimmed_and_sorted_toggles :
    ∀ (files : List TarEntry) (trimmed : Bool),
      prepare_files files true true = List.insertionSort pathLe (files.map trim_entry) ∧
      List.Sorted pathLe (prepare_files files true trimmed) ∧
      (prepare_files files true true).Perm (files.map trim_entry) ∧
      (∀ e : TarEntry, (trim_entry e).path = trim_path e.path) ∧
      (∀ p : String, '/' ∉ p.data → trim_path p = p) ∧
      (∀ pre post : String, '/' ∉ pre.data →
        trim_path (pre ++ "/" ++ post) = post) := by
  intro files trimmed
  refine ⟨rfl, ?_, ?_, fun _ => rfl, trim_path_no_slash, trim_path_strips_first_component⟩
  · cases trimmed <;> exact List.sorted_insertionSort pathLe _
  · exact List.perm_insertionSort pathLe _

/-- Witness for C8 at concrete paths and a concrete files list. -/
theorem c8_trimmed_and_sorted_toggles_witness :
    trim_path "abc" = "abc" ∧
    trim_path ("ab" ++ "/" ++ "cd") = "cd" ∧
    List.Sorted pathLe
      (prepare_files [⟨"b/x", none, none⟩, ⟨"a/y", none, none⟩] true true) :=
  ⟨(c8_trimmed_and_sorted_toggles [] true).2.2.2.2.1 "abc" (by decide),
   (c8_trimmed_and_sorted_toggles [] true).2.2.2.2.2 "ab" "cd" (by decide),
   (c8_trimmed_and_sorted_toggles [⟨"b/x", none, none⟩, ⟨"a/y", none, none⟩] true).2.1⟩

/-- A rendered line ends with a newline. -/
theorem render_line_getLast (e : TarEntry) :
    (render_line e).data.getLast? = some '\n' := by
  rw [render_line, String.data_append]
  simp [show ("\n" : String).data = ['\n'] from rfl]

/-- A rendered archive of at least one entry ends with a newline. -/
theorem render_archive_getLast :
    ∀ (files : List TarEntry), files ≠ [] →
      (render_archive files).data.getLast? = some '\n' := by
  intro files
  induction files with
  | nil => intro hf; exact absurd rfl hf
  | cons e rest ih =>
    intro _
    rw [render_archive, String.data_append]
    by_cases hrest : rest = []
    · subst hrest
      simp [render_archive, render_line_getLast e]
    · have hne : (render_archive rest).data ≠ [] := by
        intro hnil
        have h2 := ih hrest
        rw [hnil] at h2
        simp at h2
      rw [List.getLast?_append_of_ne_nil _ hne]
      exact ih hrest

/-- The digest column is exactly 73 characters wide whenever the digest text
fits (`sha256:` plus 64 hex characters is 71). -/
theorem pad_right_length (s : String) (hs : s.length ≤ 73) :
    (pad_right s 73).length = 73 := by
  rw [pad_right, String.length_append]
  have : (String.mk (List.replicate (73 - s.length) ' ')).length
      = 73 - s.length := by
    show (List.replicate (73 - s.length) ' ').length = _
    exact List.length_replicate _ _
  omega

set_option maxRecDepth 20000 in
/-- C7: each entry renders as one line — a 73-character first column holding
the digest (`sha256:` + 64 hex) or space padding, then the path, then
`' -> target'` for a symbolic link or `' link to target'` for a hard link —
and every rendered line and every non-empty rendered archive ends with a
newline.  The closing conjuncts pin the exact bytes of the three rendering
tests of `src/web.rs`, so the output is byte-stable for equal inputs. -/
theorem c7_render_archive_format :
    (∀ e : TarEntry, render_line e
        = pad_right (e.digest.getD "") 73 ++ e.path ++ link_suffix e ++ "\n") ∧
    (∀ e : TarEntry, (e.digest.getD "").length ≤ 73 →
        (pad_right (e.digest.getD "") 73).length = 73) ∧
    (∀ e : TarEntry, e.digest = none →
        pad_right (e.digest.getD "") 73 = String.mk (List.replicate 73 ' ')) ∧
    (∀ (p : String) (d : Option String) (t : String),
        link_suffix ⟨p, d, some (LinksTo.Symbolic t)⟩ = " -> " ++ t) ∧
    (∀ (p : String) (d : Option String) (t : String),
        link_suffix ⟨p, d, some (LinksTo.Hard t)⟩ = " link to " ++ t) ∧
    (∀ (p : String) (d : Option String), link_suffix ⟨p, d, none⟩ = "") ∧
    (∀ e : TarEntry, (render_line e).data.getLast? = some '\n') ∧
    (∀ files : List TarEntry, files ≠ [] →
        (render_archive files).data.getLast? = some '\n') ∧
    render_archive [
        ⟨"cmatrix-2.0/", none, none⟩,
        ⟨"cmatrix-2.0/.gitignore",
         some "sha256:45705163f227f0b5c20dc79e3d3e41b4837cb968d1c3af60cc6301b577038984", none⟩,
        ⟨"cmatrix-2.0/data/", none, none⟩,
        ⟨"cmatrix-2.0/data/img/", none, none⟩,
        ⟨"cmatrix-2.0/data/img/capture_bold_font.png",
         some "sha256:ffa566a67628191d5450b7209d6f08c8867c12380d3ebc9e808dc4012e3aca58", none⟩]
      = "                                                                         cmatrix-2.0/\nsha256:45705163f227f0b5c20dc79e3d3e41b4837cb968d1c3af60cc6301b577038984  cmatrix-2.0/.gitignore\n                                                                         cmatrix-2.0/data/\n                                                                         cmatrix-2.0/data/img/\nsha256:ffa566a67628191d5450b7209d6f08c8867c12380d3ebc9e808dc4012e3aca58  cmatrix-2.0/data/img/capture_bold_font.png\n" ∧
    render_line ⟨"foo-1.0/symlink_file", none, some (LinksTo.Symbolic "original_file")⟩
      = "                                                                         foo-1.0/symlink_file -> original_file\n" ∧
    render_line ⟨"foo-1.0/hardlink_file", none, some (LinksTo.Hard "foo-1.0/original_file")⟩
      = "                                                                         foo-1.0/hardlink_file link to foo-1.0/original_file\n" := by
  refine ⟨fun _ => rfl, fun e he => pad_right_length _ he, ?_, fun _ _ _ => rfl,
    fun _ _ _ => rfl, fun _ _ => rfl, render_line_getLast, render_archive_getLast,
    ?_, ?_, ?_⟩
  · intro e he
    rw [he]
    rfl
  · rfl
  · rfl
  · rfl

/-- Witness for C7: the column-width and padding conjuncts applied to the
concrete directory entry of the first rendering test. -/
theorem c7_render_archive_format_witness :
    (((⟨"cmatrix-2.0/", none, none⟩ : TarEntry).digest.getD "").length ≤ 73 ∧
      (pad_right ((⟨"cmatrix-2.0/", none, none⟩ : TarEntry).digest.getD "") 73).length = 73) ∧
    ((⟨"cmatrix-2.0/", none, none⟩ : TarEntry).digest = none ∧
      pad_right ((⟨"cmatrix-2.0/", none, none⟩ : TarEntry).digest.getD "") 73
        = String.mk (List.replicate 73 ' ')) ∧
    ([(⟨"cmatrix-2.0/", none, none⟩ : TarEntry)] ≠ [] ∧
      (render_archive [⟨"cmatrix-2.0/", none, none⟩]).data.getLast? = some '\n') :=
  ⟨⟨by decide, c7_render_archive_format.2.1 ⟨"cmatrix-2.0/", none, none⟩ (by decide)⟩,
   ⟨rfl, c7_render_archive_format.2.2.1 ⟨"cmatrix-2.0/", none, none⟩ rfl⟩,
   ⟨by decide, c7_render_archive_format.2.2.2.2.2.2.2.1
      [⟨"cmatrix-2.0/", none, none⟩] (by decide)⟩⟩

end WhatTheSrc
